import Mathlib

/-!
Shallow embedding of `rosbridge_library/internal/ros_loader.py`: type-string
parsing (`_splittype`), hidden action-subname resolution
(`_get_hidden_action_subname`), the message/service class caches, and the
resolver orchestration (`_get_msg_class`, `_get_srv_class`, `_get_class`)
with its ROS1-compatibility fallback.

Modelling choices, all directly readable off the Python source:
- Python strings are Lean `String`s; splitting and suffix tests are
  implemented over the underlying character lists.
- The class dictionaries (`_loaded_msgs`, `_loaded_srvs`) are association
  lists where assignment prepends a binding and lookup takes the most
  recent one; the cache is threaded explicitly through each call.
- The dynamic import machinery (`importlib.import_module`, `getattr`) is an
  abstract `Provider` record, the only thing `_load_class` consults.
- Exceptions become `Except` over `LoadError`; every raising path returns
  the caller's cache unchanged, which is faithful because the Python code
  never mutates a cache before raising.
-/

namespace RosLoader

/-- Error taxonomy of ros_loader: the exception classes
`InvalidTypeStringException`, `InvalidModuleException`,
`InvalidClassException` and `InvalidActionInterfaceException`
(payload messages omitted). -/
inductive LoadError : Type
  | invalidTypeString
  | invalidModule
  | invalidClass
  | invalidActionInterface
deriving DecidableEq

/-- External provider abstraction: `importlib.import_module` (returning a
module handle of type `μ` or failing) and `getattr` (returning a class
handle of type `α` or failing). -/
structure Provider (μ α : Type) where
  importModule : String → Option μ
  getAttr : μ → String → Option α

/-- A loaded-classes dictionary (`_loaded_msgs` / `_loaded_srvs`). -/
abbrev Cache (α : Type) : Type := List (String × α)

/-- Python `_get_from_cache` without the lock bookkeeping: `cache[key]`
when `key in cache`, otherwise `None`; lookup takes the most recent
binding. -/
def _get_from_cache {α : Type} (cache : Cache α) (key : String) : Option α :=
  match cache with
  | [] => none
  | (k, v) :: rest => if k = key then some v else _get_from_cache rest key

/-- Python `_add_to_cache` without the lock bookkeeping:
`cache[key] = value`, dictionary assignment modelled by prepending the
binding. -/
def _add_to_cache {α : Type} (cache : Cache α) (key : String) (value : α) : Cache α :=
  (key, value) :: cache

/-- Python `typestring.split("/")` over the character list: split at every
slash, keeping empty groups. -/
def splitSlash : List Char → List (List Char)
  | [] => [[]]
  | c :: rest =>
    if c = '/' then [] :: splitSlash rest
    else
      match splitSlash rest with
      | [] => [[c]]
      | g :: gs => (c :: g) :: gs

/-- Python `[x for x in typestring.split("/") if x]`: the non-empty slash
segments of a type string. -/
def strsplits (typestring : String) : List String :=
  ((splitSlash typestring.data).filter (fun g => !g.isEmpty)).map String.mk

/-- Python `subname.split("._")`: split on the literal two-character
separator, scanning left to right. -/
def splitDotUnderscore : List Char → List (List Char)
  | [] => [[]]
  | '.' :: '_' :: rest => [] :: splitDotUnderscore rest
  | c :: rest =>
    match splitDotUnderscore rest with
    | [] => [[c]]
    | g :: gs => (c :: g) :: gs

/-- Python `cs.endswith(sfx)` combined with slicing `cs[0:-len(sfx)]`:
the string without the suffix, when it ends with it. -/
def dropSuffix? (cs sfx : List Char) : Option (List Char) :=
  if sfx.length ≤ cs.length ∧ cs.drop (cs.length - sfx.length) = sfx then
    some (cs.take (cs.length - sfx.length))
  else none

/-- Inner helper `remove_autogenerated_suffixes` of
`_get_hidden_action_subname`: strips `"_SendGoal"` or `"_GetResult"`,
failing with `InvalidActionInterfaceException` otherwise. -/
def remove_autogenerated_suffixes (classname : String) : Except LoadError String :=
  match dropSuffix? classname.data "_SendGoal".data with
  | some base => .ok (String.mk base)
  | none =>
    match dropSuffix? classname.data "_GetResult".data with
    | some base => .ok (String.mk base)
    | none => .error .invalidActionInterface

/-- Condition under which the camel-to-snake regex
`((?<=[a-z0-9])[A-Z]|(?!^)[A-Z](?=[a-z]))` matches the character `c`:
`c` is an ASCII capital and either the previous character exists and is a
lowercase letter or digit, or `c` is not the first character and the next
character is a lowercase letter. -/
def snakeUnderscore (prev : Option Char) (c : Char) (nx : Option Char) : Bool :=
  c.isUpper &&
    ((match prev with
      | some p => p.isLower || p.isDigit
      | none => false)
     ||
     (prev.isSome &&
      (match nx with
       | some n => n.isLower
       | none => false)))

/-- Scan of `re.sub(..., r"_\1", camel)` over the character list: every
match is a single capital whose zero-width context (lookbehind/lookahead)
is evaluated against the original string. -/
def snakeAux (prev : Option Char) : List Char → List Char
  | [] => []
  | c :: rest =>
    (if snakeUnderscore prev c rest.head? then ['_', c] else [c]) ++ snakeAux (some c) rest

/-- Inner helper `camel_to_snake_case` of `_get_hidden_action_subname`:
the regex substitution followed by `.lower()` (lowercasing modelled on
ASCII letters). -/
def camel_to_snake_case (camel : String) : String :=
  String.mk ((snakeAux none camel.data).map Char.toLower)

/-- Python `_get_hidden_action_subname`. -/
def _get_hidden_action_subname (subname classname : String) : Except LoadError String :=
  if (splitDotUnderscore subname.data).length = 2 then
    .ok subname
  else
    match remove_autogenerated_suffixes classname with
    | .error e => .error e
    | .ok base => .ok (subname ++ "._" ++ camel_to_snake_case base)

/-- Python `_splittype`. -/
def _splittype (typestring : String) : Except LoadError (String × String) :=
  let splits := strsplits typestring
  if splits.length = 3 then .ok (splits.getD 0 "", splits.getD 2 "")
  else if splits.length = 2 then .ok (splits.getD 0 "", splits.getD 1 "")
  else if splits.length = 4 ∧ splits.getD 1 "" = "action" then
    .ok (splits.getD 0 "", splits.getD 3 "")
  else .error .invalidTypeString

/-- Python `_load_class`: import the module `modname.subname` and look up
`classname` on it, translating the two failure modes into
`InvalidModuleException` and `InvalidClassException`. -/
def _load_class {μ α : Type} (p : Provider μ α) (modname subname classname : String) :
    Except LoadError α :=
  match p.importModule (modname ++ "." ++ subname) with
  | none => .error .invalidModule
  | some pypkg =>
    match p.getAttr pypkg classname with
    | none => .error .invalidClass
    | some cls => .ok cls

/-- Python `_get_class`: cache lookup on the raw type string,
normalisation via `_splittype`, cache lookup on the normalised string,
load, then caching under both the raw and the normalised key. Raising
paths return the cache unchanged (the Python code never mutates the cache
before raising). -/
def _get_class {μ α : Type} (p : Provider μ α) (typestring subname : String)
    (cache : Cache α) : Except LoadError α × Cache α :=
  match _get_from_cache cache typestring with
  | some cls => (.ok cls, cache)
  | none =>
    match _splittype typestring with
    | .error e => (.error e, cache)
    | .ok (modname, classname) =>
      let norm_typestring := modname ++ "/" ++ classname
      match _get_from_cache cache norm_typestring with
      | some cls => (.ok cls, cache)
      | none =>
        match _load_class p modname subname classname with
        | .error e => (.error e, cache)
        | .ok cls =>
          (.ok cls, _add_to_cache (_add_to_cache cache typestring cls) norm_typestring cls)

/-- Subname inference inlined in `_get_msg_class`: the dot-joined middle
segments when more than two segments exist, else the literal "msg". -/
def _msg_subname (splits : List String) : String :=
  if 2 < splits.length then String.intercalate "." (splits.drop 1).dropLast else "msg"

/-- Subname inference inlined in `_get_srv_class`: as for messages but
defaulting to "srv", and routed through `_get_hidden_action_subname` when
the second segment equals "action". -/
def _srv_subname (splits : List String) : Except LoadError String :=
  if 2 < splits.length then
    if splits.getD 1 "" = "action" then
      _get_hidden_action_subname (String.intercalate "." (splits.drop 1).dropLast)
        (splits.getLastD "")
    else .ok (String.intercalate "." (splits.drop 1).dropLast)
  else .ok "srv"

/-- Python `_get_msg_class`: one attempt with the inferred subname,
retried once with the literal "msg" when the attempt raises
`InvalidModuleException` or `InvalidClassException`; other exceptions
propagate. -/
def _get_msg_class {μ α : Type} (p : Provider μ α) (typestring : String) (cache : Cache α) :
    Except LoadError α × Cache α :=
  match _get_class p typestring (_msg_subname (strsplits typestring)) cache with
  | (.error e, cache') =>
    if e = .invalidModule ∨ e = .invalidClass then _get_class p typestring "msg" cache'
    else (.error e, cache')
  | r => r

/-- Python `_get_srv_class`: the subname computation (including the hidden
action-subname transform) happens inside the `try` block, but only
`InvalidModuleException` and `InvalidClassException` trigger the retry
with the literal "srv"; an `InvalidActionInterfaceException` raised by the
transform propagates. -/
def _get_srv_class {μ α : Type} (p : Provider μ α) (typestring : String) (cache : Cache α) :
    Except LoadError α × Cache α :=
  match _srv_subname (strsplits typestring) with
  | .error e => (.error e, cache)
  | .ok subname =>
    match _get_class p typestring subname cache with
    | (.error e, cache') =>
      if e = .invalidModule ∨ e = .invalidClass then _get_class p typestring "srv" cache'
      else (.error e, cache')
    | r => r

/-- Python `get_message_class`. -/
def get_message_class {μ α : Type} (p : Provider μ α) (typestring : String) (cache : Cache α) :
    Except LoadError α × Cache α :=
  _get_msg_class p typestring cache

/-- Python `get_service_class`. -/
def get_service_class {μ α : Type} (p : Provider μ α) (typestring : String) (cache : Cache α) :
    Except LoadError α × Cache α :=
  _get_srv_class p typestring cache

deriving instance DecidableEq for Except

/-- Concrete provider exposing only module "pkg.a" with attribute "Cls"
(handle 7), for exercising the resolver on "pkg/a/Cls". -/
def sampleProviderA : Provider Nat Nat where
  importModule s := if s = "pkg.a" then some 0 else none
  getAttr _ c := if c = "Cls" then some 7 else none

/-- Concrete provider exposing only module "pkg.action" with attribute
"Foo" (handle 42), for exercising the service action special case. -/
def sampleProviderB : Provider Nat Nat where
  importModule s := if s = "pkg.action" then some 0 else none
  getAttr _ c := if c = "Foo" then some 42 else none

/-- Concrete provider exposing modules "pkg.msg" and "pkg.srv" with
attribute "Cls" (handle 42), for exercising the default-subname
fallback. -/
def sampleProviderC : Provider Nat Nat where
  importModule s := if s = "pkg.msg" ∨ s = "pkg.srv" then some 0 else none
  getAttr _ c := if c = "Cls" then some 42 else none

/-- Provider on which every import and attribute lookup fails, witnessing
that cached resolutions never consult the provider. -/
def deadProvider : Provider Nat Nat where
  importModule _ := none
  getAttr _ _ := none

/-- Spec-side formulation (written from the spec wording, to be compared
with the source translation): the underscore-insertion condition at
position i — the character there is an uppercase letter that is preceded
by a lowercase letter or digit, or is followed by a lowercase letter while
not being the first character. -/
def specSnakeAt (cs : List Char) (i : Nat) : Bool :=
  (match cs[i]? with
   | some c => c.isUpper
   | none => false) &&
  ((decide (0 < i) &&
    (match cs[i-1]? with
     | some pc => pc.isLower || pc.isDigit
     | none => false))
   ||
   (decide (0 < i) &&
    (match cs[i+1]? with
     | some nc => nc.isLower
     | none => false)))

/-- Spec-side formulation of the camel-to-snake conversion: insert an
underscore before every position satisfying `specSnakeAt`, then lowercase
the whole result. -/
def spec_camel_to_snake (s : String) : String :=
  String.mk ((s.data.enum.flatMap
    (fun ic => if specSnakeAt s.data ic.1 then ['_', ic.2] else [ic.2])).map Char.toLower)

/-! Basic lemmas about strings, the cache and the parser. -/

theorem mk_data (s : String) : String.mk s.data = s := by
  cases s
  rfl

theorem get_from_cache_add {α : Type} (cache : Cache α) (k k2 : String) (v : α) :
    _get_from_cache (_add_to_cache cache k v) k2 =
      if k = k2 then some v else _get_from_cache cache k2 := rfl

theorem load_class_error_kind {μ α : Type} {p : Provider μ α} {m s c : String} {e : LoadError}
    (h : _load_class p m s c = .error e) : e = .invalidModule ∨ e = .invalidClass := by
  unfold _load_class at h
  split at h
  · simp only [Except.error.injEq] at h
    exact Or.inl h.symm
  · split at h
    · simp only [Except.error.injEq] at h
      exact Or.inr h.symm
    · simp at h

theorem splittype_spec (ts : String) :
    (∃ a b, strsplits ts = [a, b] ∧ _splittype ts = .ok (a, b)) ∨
    (∃ a b c, strsplits ts = [a, b, c] ∧ _splittype ts = .ok (a, c)) ∨
    (∃ a c d, strsplits ts = [a, "action", c, d] ∧ _splittype ts = .ok (a, d)) ∨
    ((¬ ∃ a b, strsplits ts = [a, b]) ∧ (¬ ∃ a b c, strsplits ts = [a, b, c]) ∧
      (¬ ∃ a c d, strsplits ts = [a, "action", c, d]) ∧
      _splittype ts = .error .invalidTypeString) := by
  unfold _splittype
  rcases hl : strsplits ts with _ | ⟨a, _ | ⟨b, _ | ⟨c, _ | ⟨d, _ | ⟨e, l5⟩⟩⟩⟩⟩ <;>
    simp [List.getD]
  by_cases hb : b = "action"
  · subst hb
    simp
  · simp [hb]

theorem splittype_ok_head_last {ts : String} {m cl : String}
    (h : _splittype ts = .ok (m, cl)) :
    (strsplits ts).head? = some m ∧ (strsplits ts).getLast? = some cl := by
  rcases splittype_spec ts with ⟨a, b, hl, he⟩ | ⟨a, b, c, hl, he⟩ | ⟨a, c, d, hl, he⟩ |
    ⟨_, _, _, he⟩ <;> rw [he] at h
  · obtain ⟨rfl, rfl⟩ : a = m ∧ b = cl := by simpa using h
    simp [hl]
  · obtain ⟨rfl, rfl⟩ : a = m ∧ c = cl := by simpa using h
    simp [hl]
  · obtain ⟨rfl, rfl⟩ : a = m ∧ d = cl := by simpa using h
    simp [hl]
  · simp at h

/-! Behavioural lemmas about `_get_class` and the two entry points. -/

theorem get_class_cached {μ α : Type} (p : Provider μ α) {ts : String} (sub : String)
    {cache : Cache α} {h : α} (hc : _get_from_cache cache ts = some h) :
    _get_class p ts sub cache = (.ok h, cache) := by
  unfold _get_class
  rw [hc]

theorem get_class_norm_hit {μ α : Type} (p : Provider μ α) {ts : String} (sub : String)
    {cache : Cache α} {m cl : String} {h : α}
    (h1 : _get_from_cache cache ts = none)
    (h2 : _splittype ts = .ok (m, cl))
    (h3 : _get_from_cache cache (m ++ "/" ++ cl) = some h) :
    _get_class p ts sub cache = (.ok h, cache) := by
  unfold _get_class
  rw [h1, h2]
  simp only
  rw [h3]

theorem get_class_fresh {μ α : Type} (p : Provider μ α) {ts : String} (sub : String)
    {cache : Cache α} {m cl : String}
    (h1 : _get_from_cache cache ts = none)
    (h2 : _splittype ts = .ok (m, cl))
    (h3 : _get_from_cache cache (m ++ "/" ++ cl) = none) :
    _get_class p ts sub cache =
      match _load_class p m sub cl with
      | .error e => (.error e, cache)
      | .ok cls => (.ok cls, _add_to_cache (_add_to_cache cache ts cls) (m ++ "/" ++ cl) cls) := by
  unfold _get_class
  rw [h1, h2]
  simp only
  rw [h3]

theorem splittype_error_kind {ts : String} {e : LoadError}
    (h : _splittype ts = .error e) : e = .invalidTypeString := by
  rcases splittype_spec ts with ⟨a, b, hl, he⟩ | ⟨a, b, c, hl, he⟩ | ⟨a, c, d, hl, he⟩ |
    ⟨-, -, -, he⟩ <;> rw [he] at h <;> simp_all

theorem get_class_cases {μ α : Type} (p : Provider μ α) (ts sub : String) (cache : Cache α) :
    (∃ h, _get_from_cache cache ts = some h ∧ _get_class p ts sub cache = (.ok h, cache)) ∨
    (_get_from_cache cache ts = none ∧ _splittype ts = .error .invalidTypeString ∧
      _get_class p ts sub cache = (.error .invalidTypeString, cache)) ∨
    (_get_from_cache cache ts = none ∧ ∃ m cl h, _splittype ts = .ok (m, cl) ∧
      _get_from_cache cache (m ++ "/" ++ cl) = some h ∧
      _get_class p ts sub cache = (.ok h, cache)) ∨
    (_get_from_cache cache ts = none ∧ ∃ m cl, _splittype ts = .ok (m, cl) ∧
      _get_from_cache cache (m ++ "/" ++ cl) = none ∧
      ((∃ e, _load_class p m sub cl = .error e ∧
          _get_class p ts sub cache = (.error e, cache)) ∨
       (∃ cls, _load_class p m sub cl = .ok cls ∧
          _get_class p ts sub cache =
            (.ok cls, _add_to_cache (_add_to_cache cache ts cls) (m ++ "/" ++ cl) cls)))) := by
  cases hts : _get_from_cache cache ts with
  | some h => exact Or.inl ⟨h, rfl, get_class_cached p sub hts⟩
  | none =>
    cases hsp : _splittype ts with
    | error e =>
      have he := splittype_error_kind hsp
      subst he
      refine Or.inr (Or.inl ⟨rfl, rfl, ?_⟩)
      unfold _get_class
      rw [hts, hsp]
    | ok mc =>
      obtain ⟨m, cl⟩ := mc
      cases hn : _get_from_cache cache (m ++ "/" ++ cl) with
      | some h =>
        exact Or.inr (Or.inr (Or.inl ⟨rfl, m, cl, h, rfl, hn, get_class_norm_hit p sub hts hsp hn⟩))
      | none =>
        refine Or.inr (Or.inr (Or.inr ⟨rfl, m, cl, rfl, hn, ?_⟩))
        have hf := get_class_fresh p sub hts hsp hn
        cases hl : _load_class p m sub cl with
        | error e =>
          refine Or.inl ⟨e, rfl, ?_⟩
          rw [hf, hl]
        | ok cls =>
          refine Or.inr ⟨cls, rfl, ?_⟩
          rw [hf, hl]

theorem get_class_error_cache {μ α : Type} {p : Provider μ α} {ts sub : String}
    {cache c' : Cache α} {e : LoadError}
    (h : _get_class p ts sub cache = (.error e, c')) : c' = cache := by
  rcases get_class_cases p ts sub cache with ⟨h0, -, he⟩ |
    ⟨-, -, he⟩ | ⟨-, m, cl, h0, -, -, he⟩ | ⟨-, m, cl, -, -, ⟨e0, -, he⟩ | ⟨cls, -, he⟩⟩ <;>
    rw [he] at h <;> simp_all

theorem get_class_error_kind {μ α : Type} {p : Provider μ α} {ts sub : String}
    {cache c' : Cache α} {e : LoadError}
    (h : _get_class p ts sub cache = (.error e, c')) :
    e = .invalidTypeString ∨ e = .invalidModule ∨ e = .invalidClass := by
  rcases get_class_cases p ts sub cache with ⟨h0, -, he⟩ |
    ⟨-, -, he⟩ | ⟨-, m, cl, h0, -, -, he⟩ | ⟨-, m, cl, -, -, ⟨e0, hl, he⟩ | ⟨cls, -, he⟩⟩ <;>
    rw [he] at h
  · simp at h
  · simp only [Prod.mk.injEq, Except.error.injEq] at h
    exact Or.inl h.1.symm
  · simp at h
  · simp only [Prod.mk.injEq, Except.error.injEq] at h
    exact Or.inr (h.1 ▸ load_class_error_kind hl)
  · simp at h

theorem get_class_ok_stable {μ μ' α : Type} {p : Provider μ α} {ts sub : String}
    {cache c' : Cache α} {h : α}
    (hok : _get_class p ts sub cache = (.ok h, c'))
    (q : Provider μ' α) (sub2 : String) :
    _get_class q ts sub2 c' = (.ok h, c') := by
  rcases get_class_cases p ts sub cache with ⟨h0, hts, he⟩ |
    ⟨-, -, he⟩ | ⟨hts, m, cl, h0, hsp, hn, he⟩ |
    ⟨hts, m, cl, hsp, hn, ⟨e0, -, he⟩ | ⟨cls, -, he⟩⟩ <;> rw [he] at hok
  · simp only [Prod.mk.injEq, Except.ok.injEq] at hok
    obtain ⟨rfl, rfl⟩ := hok
    exact get_class_cached q sub2 hts
  · simp at hok
  · simp only [Prod.mk.injEq, Except.ok.injEq] at hok
    obtain ⟨rfl, rfl⟩ := hok
    exact get_class_norm_hit q sub2 hts hsp hn
  · simp at hok
  · simp only [Prod.mk.injEq, Except.ok.injEq] at hok
    obtain ⟨rfl, rfl⟩ := hok
    apply get_class_cached q sub2
    rw [get_from_cache_add, get_from_cache_add]
    by_cases hmc : m ++ "/" ++ cl = ts
    · rw [if_pos hmc]
    · rw [if_neg hmc, if_pos rfl]

theorem msg_class_ok_stable {μ μ' α : Type} {p : Provider μ α} {ts : String}
    {cache c' : Cache α} {h : α}
    (hok : _get_msg_class p ts cache = (.ok h, c')) (q : Provider μ' α) :
    _get_msg_class q ts c' = (.ok h, c') := by
  rcases hres : _get_class p ts (_msg_subname (strsplits ts)) cache with ⟨e | cls, c1⟩
  · have h1 : _get_msg_class p ts cache =
        (if e = .invalidModule ∨ e = .invalidClass then _get_class p ts "msg" c1
         else (.error e, c1)) := by
      unfold _get_msg_class
      rw [hres]
    rw [h1] at hok
    by_cases hif : e = .invalidModule ∨ e = .invalidClass
    · rw [if_pos hif] at hok
      have h2 := get_class_ok_stable hok q (_msg_subname (strsplits ts))
      unfold _get_msg_class
      rw [h2]
    · rw [if_neg hif] at hok
      simp at hok
  · have h1 : _get_msg_class p ts cache = (.ok cls, c1) := by
      unfold _get_msg_class
      rw [hres]
    rw [h1] at hok
    simp only [Prod.mk.injEq, Except.ok.injEq] at hok
    obtain ⟨rfl, rfl⟩ := hok
    have h2 := get_class_ok_stable hres q (_msg_subname (strsplits ts))
    unfold _get_msg_class
    rw [h2]

theorem srv_class_eq_of_subname {μ α : Type} (p : Provider μ α) {ts sub : String}
    (cache : Cache α) (hsub : _srv_subname (strsplits ts) = .ok sub) :
    _get_srv_class p ts cache =
      match _get_class p ts sub cache with
      | (.error e, cache') =>
        if e = .invalidModule ∨ e = .invalidClass then _get_class p ts "srv" cache'
        else (.error e, cache')
      | r => r := by
  unfold _get_srv_class
  rw [hsub]

theorem srv_class_ok_stable {μ μ' α : Type} {p : Provider μ α} {ts : String}
    {cache c' : Cache α} {h : α}
    (hok : _get_srv_class p ts cache = (.ok h, c')) (q : Provider μ' α) :
    _get_srv_class q ts c' = (.ok h, c') := by
  rcases hsub : _srv_subname (strsplits ts) with e0 | sub
  · have h1 : _get_srv_class p ts cache = (.error e0, cache) := by
      unfold _get_srv_class
      rw [hsub]
    rw [h1] at hok
    simp at hok
  · rcases hres : _get_class p ts sub cache with ⟨e | cls, c1⟩
    · have h1 : _get_srv_class p ts cache =
          (if e = .invalidModule ∨ e = .invalidClass then _get_class p ts "srv" c1
           else (.error e, c1)) := by
        rw [srv_class_eq_of_subname p cache hsub, hres]
      rw [h1] at hok
      by_cases hif : e = .invalidModule ∨ e = .invalidClass
      · rw [if_pos hif] at hok
        have h2 := get_class_ok_stable hok q sub
        rw [srv_class_eq_of_subname q c' hsub, h2]
      · rw [if_neg hif] at hok
        simp at hok
    · have h1 : _get_srv_class p ts cache = (.ok cls, c1) := by
        rw [srv_class_eq_of_subname p cache hsub, hres]
      rw [h1] at hok
      simp only [Prod.mk.injEq, Except.ok.injEq] at hok
      obtain ⟨rfl, rfl⟩ := hok
      have h2 := get_class_ok_stable hres q sub
      rw [srv_class_eq_of_subname q c1 hsub, h2]

theorem msg_class_error_cache {μ α : Type} {p : Provider μ α} {ts : String}
    {cache c' : Cache α} {e : LoadError}
    (h : _get_msg_class p ts cache = (.error e, c')) : c' = cache := by
  rcases hres : _get_class p ts (_msg_subname (strsplits ts)) cache with ⟨e1 | cls, c1⟩
  · have hc1 : c1 = cache := get_class_error_cache hres
    have h1 : _get_msg_class p ts cache =
        (if e1 = .invalidModule ∨ e1 = .invalidClass then _get_class p ts "msg" c1
         else (.error e1, c1)) := by
      unfold _get_msg_class
      rw [hres]
    rw [h1] at h
    by_cases hif : e1 = .invalidModule ∨ e1 = .invalidClass
    · rw [if_pos hif] at h
      exact (get_class_error_cache h).trans hc1
    · rw [if_neg hif] at h
      simp only [Prod.mk.injEq, Except.error.injEq] at h
      exact h.2.symm ▸ hc1
  · have h1 : _get_msg_class p ts cache = (.ok cls, c1) := by
      unfold _get_msg_class
      rw [hres]
    rw [h1] at h
    simp at h

theorem srv_class_error_cache {μ α : Type} {p : Provider μ α} {ts : String}
    {cache c' : Cache α} {e : LoadError}
    (h : _get_srv_class p ts cache = (.error e, c')) : c' = cache := by
  rcases hsub : _srv_subname (strsplits ts) with e0 | sub
  · have h1 : _get_srv_class p ts cache = (.error e0, cache) := by
      unfold _get_srv_class
      rw [hsub]
    rw [h1] at h
    simp only [Prod.mk.injEq, Except.error.injEq] at h
    exact h.2.symm
  · rcases hres : _get_class p ts sub cache with ⟨e1 | cls, c1⟩
    · have hc1 : c1 = cache := get_class_error_cache hres
      have h1 : _get_srv_class p ts cache =
          (if e1 = .invalidModule ∨ e1 = .invalidClass then _get_class p ts "srv" c1
           else (.error e1, c1)) := by
        rw [srv_class_eq_of_subname p cache hsub, hres]
      rw [h1] at h
      by_cases hif : e1 = .invalidModule ∨ e1 = .invalidClass
      · rw [if_pos hif] at h
        exact (get_class_error_cache h).trans hc1
      · rw [if_neg hif] at h
        simp only [Prod.mk.injEq, Except.error.injEq] at h
        exact h.2.symm ▸ hc1
    · have h1 : _get_srv_class p ts cache = (.ok cls, c1) := by
        rw [srv_class_eq_of_subname p cache hsub, hres]
      rw [h1] at h
      simp at h

theorem msg_class_eq {μ α : Type} (p : Provider μ α) (ts : String) (cache : Cache α) :
    _get_msg_class p ts cache =
      match _get_class p ts (_msg_subname (strsplits ts)) cache with
      | (.error e, cache') =>
        if e = .invalidModule ∨ e = .invalidClass then _get_class p ts "msg" cache'
        else (.error e, cache')
      | r => r := rfl

theorem splittype_error_of_shape {ts : String}
    (h2 : (strsplits ts).length ≠ 2) (h3 : (strsplits ts).length ≠ 3)
    (h4 : ¬((strsplits ts).length = 4 ∧ (strsplits ts).getD 1 "" = "action")) :
    _splittype ts = .error .invalidTypeString := by
  rcases splittype_spec ts with ⟨a, b, hl, he⟩ | ⟨a, b, c, hl, he⟩ | ⟨a, c, d, hl, he⟩ |
    ⟨-, -, -, he⟩
  · rw [hl] at h2
    simp at h2
  · rw [hl] at h3
    simp at h3
  · refine absurd ⟨?_, ?_⟩ h4 <;> rw [hl] <;> rfl
  · exact he

/-! Claim theorems. -/

/-- C3: for both message and service resolution, a first attempt failing
with InvalidModule or InvalidClass is retried exactly once with the
literal default subpath ("msg"/"srv"), whose outcome (success or error) is
the overall outcome, the first failure not being surfaced; a first attempt
failing with InvalidTypeString or InvalidActionInterface propagates
unchanged without retry (for services, an InvalidActionInterface raised by
the subname computation also propagates without touching the cache). -/
theorem c3_fallback_retry {μ α : Type} (p : Provider μ α) (ts : String) (cache : Cache α) :
    (∀ (h : α) c1, _get_class p ts (_msg_subname (strsplits ts)) cache = (.ok h, c1) →
      _get_msg_class p ts cache = (.ok h, c1)) ∧
    (∀ e c1, _get_class p ts (_msg_subname (strsplits ts)) cache = (.error e, c1) →
      ((e = .invalidModule ∨ e = .invalidClass) →
        _get_msg_class p ts cache = _get_class p ts "msg" c1) ∧
      ((e = .invalidTypeString ∨ e = .invalidActionInterface) →
        _get_msg_class p ts cache = (.error e, c1))) ∧
    (∀ e, _srv_subname (strsplits ts) = .error e →
      _get_srv_class p ts cache = (.error e, cache)) ∧
    (∀ sub, _srv_subname (strsplits ts) = .ok sub →
      (∀ (h : α) c1, _get_class p ts sub cache = (.ok h, c1) →
        _get_srv_class p ts cache = (.ok h, c1)) ∧
      (∀ e c1, _get_class p ts sub cache = (.error e, c1) →
        ((e = .invalidModule ∨ e = .invalidClass) →
          _get_srv_class p ts cache = _get_class p ts "srv" c1) ∧
        ((e = .invalidTypeString ∨ e = .invalidActionInterface) →
          _get_srv_class p ts cache = (.error e, c1)))) := by
  refine ⟨?_, ?_, ?_, ?_⟩
  · intro h c1 hres
    rw [msg_class_eq, hres]
  · intro e c1 hres
    have h1 : _get_msg_class p ts cache =
        (if e = .invalidModule ∨ e = .invalidClass then _get_class p ts "msg" c1
         else (.error e, c1)) := by
      rw [msg_class_eq, hres]
    constructor
    · intro hif
      rw [h1, if_pos hif]
    · rintro (rfl | rfl) <;> rw [h1, if_neg (by decide)]
  · intro e hsub
    unfold _get_srv_class
    rw [hsub]
  · intro sub hsub
    refine ⟨?_, ?_⟩
    · intro h c1 hres
      rw [srv_class_eq_of_subname p cache hsub, hres]
    · intro e c1 hres
      have h1 : _get_srv_class p ts cache =
          (if e = .invalidModule ∨ e = .invalidClass then _get_class p ts "srv" c1
           else (.error e, c1)) := by
        rw [srv_class_eq_of_subname p cache hsub, hres]
      constructor
      · intro hif
        rw [h1, if_pos hif]
      · rintro (rfl | rfl) <;> rw [h1, if_neg (by decide)]

/-- Witness for C3 at a concrete input: "pkg/Sub/Cls" fails to load under
its inferred subpath "Sub" but succeeds under the defaults, so both entry
points return the fallback call's result, which is a success. -/
theorem c3_fallback_retry_witness :
    _get_msg_class sampleProviderC "pkg/Sub/Cls" ([] : Cache Nat) =
      _get_class sampleProviderC "pkg/Sub/Cls" "msg" [] ∧
    _get_srv_class sampleProviderC "pkg/Sub/Cls" ([] : Cache Nat) =
      _get_class sampleProviderC "pkg/Sub/Cls" "srv" [] ∧
    (_get_msg_class sampleProviderC "pkg/Sub/Cls" ([] : Cache Nat)).1 = .ok 42 :=
  ⟨((c3_fallback_retry sampleProviderC "pkg/Sub/Cls" []).2.1 .invalidModule []
      (by decide)).1 (Or.inl rfl),
   (((c3_fallback_retry sampleProviderC "pkg/Sub/Cls" []).2.2.2 "Sub" (by decide)).2
      .invalidModule [] (by decide)).1 (Or.inl rfl),
   by decide⟩

/-- C4: an identifier whose non-empty segment count is not 2, not 3 and
not 4-with-second-segment-"action" fails with InvalidTypeString once it
reaches the parse step (cache miss on the raw string; for services,
provided the subname computation itself did not raise), and every failed
resolution of any kind leaves the cache exactly as it was. -/
theorem c4_invalid_shape_and_failure_purity {μ α : Type} (p : Provider μ α) (ts : String)
    (cache : Cache α) :
    ((strsplits ts).length ≠ 2 → (strsplits ts).length ≠ 3 →
      ¬((strsplits ts).length = 4 ∧ (strsplits ts).getD 1 "" = "action") →
      _get_from_cache cache ts = none →
      _get_msg_class p ts cache = (.error .invalidTypeString, cache)) ∧
    ((strsplits ts).length ≠ 2 → (strsplits ts).length ≠ 3 →
      ¬((strsplits ts).length = 4 ∧ (strsplits ts).getD 1 "" = "action") →
      _get_from_cache cache ts = none →
      ∀ sub, _srv_subname (strsplits ts) = .ok sub →
      _get_srv_class p ts cache = (.error .invalidTypeString, cache)) ∧
    (∀ sub e c', _get_class p ts sub cache = (.error e, c') → c' = cache) ∧
    (∀ e c', _get_msg_class p ts cache = (.error e, c') → c' = cache) ∧
    (∀ e c', _get_srv_class p ts cache = (.error e, c') → c' = cache) := by
  refine ⟨?_, ?_, fun sub e c' h => get_class_error_cache h,
    fun e c' h => msg_class_error_cache h, fun e c' h => srv_class_error_cache h⟩
  · intro h2 h3 h4 hmiss
    have hsp := splittype_error_of_shape h2 h3 h4
    have h1 : _get_class p ts (_msg_subname (strsplits ts)) cache =
        (.error .invalidTypeString, cache) := by
      unfold _get_class
      rw [hmiss, hsp]
    have h5 : _get_msg_class p ts cache =
        (if LoadError.invalidTypeString = .invalidModule ∨
            LoadError.invalidTypeString = .invalidClass then
          _get_class p ts "msg" cache
         else (.error .invalidTypeString, cache)) := by
      rw [msg_class_eq, h1]
    rw [h5, if_neg (by decide)]
  · intro h2 h3 h4 hmiss sub hsub
    have hsp := splittype_error_of_shape h2 h3 h4
    have h1 : _get_class p ts sub cache = (.error .invalidTypeString, cache) := by
      unfold _get_class
      rw [hmiss, hsp]
    have h5 : _get_srv_class p ts cache =
        (if LoadError.invalidTypeString = .invalidModule ∨
            LoadError.invalidTypeString = .invalidClass then
          _get_class p ts "srv" cache
         else (.error .invalidTypeString, cache)) := by
      rw [srv_class_eq_of_subname p cache hsub, h1]
    rw [h5, if_neg (by decide)]

/-- Witness for C4 at a concrete five-segment identifier. -/
theorem c4_invalid_shape_witness :
    _get_msg_class sampleProviderC "a/b/c/d/e" ([] : Cache Nat) =
      (.error .invalidTypeString, []) ∧
    _get_srv_class sampleProviderC "a/b/c/d/e" ([] : Cache Nat) =
      (.error .invalidTypeString, []) :=
  ⟨(c4_invalid_shape_and_failure_purity sampleProviderC "a/b/c/d/e" []).1
      (by decide) (by decide) (by decide) rfl,
   (c4_invalid_shape_and_failure_purity sampleProviderC "a/b/c/d/e" []).2.1
      (by decide) (by decide) (by decide) rfl "b.c.d" (by decide)⟩

/-- C7: when a resolution succeeds, resolving the same identifier again
through the same entry point, starting from the resulting cache, returns
the identical handle and the unchanged cache, and does so for every
provider whatsoever (in particular one on which every import and
attribute lookup fails) — i.e. the second call never consults the
external provider. -/
theorem c7_second_resolution_cached {μ μ' α : Type} (p : Provider μ α) (q : Provider μ' α)
    (ts : String) (cache c' : Cache α) (h : α) :
    (_get_msg_class p ts cache = (.ok h, c') → _get_msg_class q ts c' = (.ok h, c')) ∧
    (_get_srv_class p ts cache = (.ok h, c') → _get_srv_class q ts c' = (.ok h, c')) :=
  ⟨fun hok => msg_class_ok_stable hok q, fun hok => srv_class_ok_stable hok q⟩

/-- Witness for C7: "pkg/Cls" is first resolved through the real provider,
then resolved again through the dead provider, yielding the same handle
and cache. -/
theorem c7_second_resolution_witness :
    _get_msg_class deadProvider "pkg/Cls" [("pkg/Cls", 42), ("pkg/Cls", 42)] =
      (.ok 42, [("pkg/Cls", 42), ("pkg/Cls", 42)]) :=
  (c7_second_resolution_cached sampleProviderC deadProvider "pkg/Cls" []
    [("pkg/Cls", 42), ("pkg/Cls", 42)] 42).1 (by decide)

/-- C1 counterexample: after "pkg/a/Cls" has been resolved (populating the
message cache under "pkg/a/Cls" and "pkg/Cls"), resolving "pkg/b/Cls"
succeeds via a cache hit on the normalised key "pkg/Cls", yet the cache it
returns does not contain the caller's original identifier "pkg/b/Cls" —
contradicting the claim that on a normalised-key hit the handle is also
stored under the original identifier before returning. -/
theorem c1_norm_hit_not_stored_counterexample :
    _get_msg_class sampleProviderA "pkg/a/Cls" ([] : Cache Nat) =
      (.ok 7, [("pkg/Cls", 7), ("pkg/a/Cls", 7)]) ∧
    _get_msg_class sampleProviderA "pkg/b/Cls" [("pkg/Cls", 7), ("pkg/a/Cls", 7)] =
      (.ok 7, [("pkg/Cls", 7), ("pkg/a/Cls", 7)]) ∧
    _get_from_cache [("pkg/Cls", 7), ("pkg/a/Cls", 7)] "pkg/b/Cls" = (none : Option Nat) := by
  decide

/-- C1 amended: a resolution that succeeds by actually loading (both cache
lookups miss) stores the handle under both the original and the normalised
identifier; a resolution that succeeds via a cache hit — on the raw key or
on the normalised key — returns the cache unchanged, so in the
normalised-hit case nothing is stored under the original identifier. -/
theorem c1_cache_population {μ α : Type} (p : Provider μ α) (ts sub : String) (cache : Cache α)
    (m cl : String) (hsp : _splittype ts = .ok (m, cl)) :
    (∀ h, _get_from_cache cache ts = some h → _get_class p ts sub cache = (.ok h, cache)) ∧
    (_get_from_cache cache ts = none →
      ∀ h, _get_from_cache cache (m ++ "/" ++ cl) = some h →
        _get_class p ts sub cache = (.ok h, cache)) ∧
    (_get_from_cache cache ts = none →
      _get_from_cache cache (m ++ "/" ++ cl) = none →
      ∀ h, _load_class p m sub cl = .ok h →
        (_get_class p ts sub cache).1 = .ok h ∧
        _get_from_cache (_get_class p ts sub cache).2 ts = some h ∧
        _get_from_cache (_get_class p ts sub cache).2 (m ++ "/" ++ cl) = some h) := by
  refine ⟨fun h hc => get_class_cached p sub hc,
    fun hmiss h hn => get_class_norm_hit p sub hmiss hsp hn, ?_⟩
  intro hmiss hn h hl
  have hf : _get_class p ts sub cache =
      (.ok h, _add_to_cache (_add_to_cache cache ts h) (m ++ "/" ++ cl) h) := by
    rw [get_class_fresh p sub hmiss hsp hn, hl]
  rw [hf]
  refine ⟨rfl, ?_, ?_⟩
  · rw [get_from_cache_add, get_from_cache_add]
    by_cases hmc : m ++ "/" ++ cl = ts
    · rw [if_pos hmc]
    · rw [if_neg hmc, if_pos rfl]
  · rw [get_from_cache_add, if_pos rfl]

/-- Witness for C1 (amended): resolving "pkg/b/Cls" against a cache already
holding the normalised key "pkg/Cls" returns the cached handle with the
cache unchanged. -/
theorem c1_cache_population_witness :
    _get_class sampleProviderA "pkg/b/Cls" "b" [("pkg/Cls", 7), ("pkg/a/Cls", 7)] =
      (.ok 7, [("pkg/Cls", 7), ("pkg/a/Cls", 7)]) :=
  (c1_cache_population sampleProviderA "pkg/b/Cls" "b" [("pkg/Cls", 7), ("pkg/a/Cls", 7)]
    "pkg" "Cls" (by decide)).2.1 rfl 7 (by decide)

/-- C2 counterexample: "pkg/action/Foo" has only three non-empty segments,
so by the claim the transform should not be applied and the untransformed
subpath "action" should be used — under which loading would succeed with
handle 42; instead the code applies the hidden-action transform, which
fails with InvalidActionInterface. -/
theorem c2_action_transform_counterexample :
    _get_srv_class sampleProviderB "pkg/action/Foo" ([] : Cache Nat) =
      (.error .invalidActionInterface, []) ∧
    (_get_class sampleProviderB "pkg/action/Foo" "action" ([] : Cache Nat)).1 = .ok 42 := by
  decide

/-- C2 amended: the hidden-action transform is applied during service
resolution exactly to identifiers with three or more non-empty segments
whose second segment equals "action"; with fewer than three segments or a
different second segment the inferred (or default "srv") subpath is used
untransformed, and when the transform is applied its failure aborts the
resolution with the transform's error and an unchanged cache. -/
theorem c2_action_transform_condition {μ α : Type} (p : Provider μ α) (ts : String)
    (cache : Cache α) :
    ((strsplits ts).length < 3 ∨ (strsplits ts).getD 1 "" ≠ "action" →
      _get_srv_class p ts cache =
        match _get_class p ts
            (if 2 < (strsplits ts).length then
              String.intercalate "." ((strsplits ts).drop 1).dropLast
             else "srv") cache with
        | (.error e, cache') =>
          if e = .invalidModule ∨ e = .invalidClass then _get_class p ts "srv" cache'
          else (.error e, cache')
        | r => r) ∧
    (3 ≤ (strsplits ts).length → (strsplits ts).getD 1 "" = "action" →
      _srv_subname (strsplits ts) =
        _get_hidden_action_subname (String.intercalate "." ((strsplits ts).drop 1).dropLast)
          ((strsplits ts).getLastD "")) ∧
    (3 ≤ (strsplits ts).length → (strsplits ts).getD 1 "" = "action" →
      ∀ e, _get_hidden_action_subname (String.intercalate "." ((strsplits ts).drop 1).dropLast)
          ((strsplits ts).getLastD "") = .error e →
        _get_srv_class p ts cache = (.error e, cache)) := by
  refine ⟨?_, ?_, ?_⟩
  · intro hcase
    by_cases h23 : 2 < (strsplits ts).length
    · have hact : (strsplits ts).getD 1 "" ≠ "action" := by
        rcases hcase with hlt | hne
        · omega
        · exact hne
      have hsub : _srv_subname (strsplits ts) =
          .ok (String.intercalate "." ((strsplits ts).drop 1).dropLast) := by
        unfold _srv_subname
        rw [if_pos h23, if_neg hact]
      rw [srv_class_eq_of_subname p cache hsub, if_pos h23]
    · have hsub : _srv_subname (strsplits ts) = .ok "srv" := by
        unfold _srv_subname
        rw [if_neg h23]
      rw [srv_class_eq_of_subname p cache hsub, if_neg h23]
  · intro h3 hact
    unfold _srv_subname
    rw [if_pos (by omega), if_pos hact]
  · intro h3 hact e he
    have hsub : _srv_subname (strsplits ts) = .error e := by
      unfold _srv_subname
      rw [if_pos (by omega), if_pos hact, he]
    unfold _get_srv_class
    rw [hsub]

/-- Witness for C2 (amended): a four-segment action identifier whose class
name lacks a recognised suffix aborts service resolution with
InvalidActionInterface. -/
theorem c2_action_transform_witness :
    _get_srv_class sampleProviderB "pkg/action/x/Cls" ([] : Cache Nat) =
      (.error .invalidActionInterface, []) :=
  (c2_action_transform_condition sampleProviderB "pkg/action/x/Cls" []).2.2
    (by decide) (by decide) .invalidActionInterface (by decide)

theorem splitSlash_cons_slash (rest : List Char) :
    splitSlash ('/' :: rest) = [] :: splitSlash rest := by
  conv_lhs => unfold splitSlash
  rw [if_pos rfl]

theorem splitSlash_cons_ne {c : Char} (rest : List Char) (hc : c ≠ '/') :
    splitSlash (c :: rest) =
      match splitSlash rest with
      | [] => [[c]]
      | g :: gs => (c :: g) :: gs := by
  conv_lhs => unfold splitSlash
  rw [if_neg hc]

theorem splitSlash_no_slash {cs : List Char} (h : '/' ∉ cs) : splitSlash cs = [cs] := by
  induction cs with
  | nil => rfl
  | cons c rest ih =>
    have hc : c ≠ '/' := fun hh => h (hh ▸ List.mem_cons_self c rest)
    have hr : '/' ∉ rest := fun hh => h (List.mem_cons_of_mem c hh)
    rw [splitSlash_cons_ne rest hc, ih hr]

theorem splitSlash_append {xs : List Char} (ys : List Char) (h : '/' ∉ xs) :
    splitSlash (xs ++ '/' :: ys) = xs :: splitSlash ys := by
  induction xs with
  | nil => exact splitSlash_cons_slash ys
  | cons c rest ih =>
    have hc : c ≠ '/' := fun hh => h (hh ▸ List.mem_cons_self c rest)
    have hr : '/' ∉ rest := fun hh => h (List.mem_cons_of_mem c hh)
    show splitSlash (c :: (rest ++ '/' :: ys)) = (c :: rest) :: splitSlash ys
    rw [splitSlash_cons_ne _ hc, ih hr]

theorem strsplits_two {pkg cls : String} (hp : '/' ∉ pkg.data) (hpne : pkg.data ≠ [])
    (hc : '/' ∉ cls.data) (hcne : cls.data ≠ []) :
    strsplits (pkg ++ "/" ++ cls) = [pkg, cls] := by
  have hdata : (pkg ++ "/" ++ cls).data = pkg.data ++ '/' :: cls.data := by
    rw [String.data_append, String.data_append]
    simp
  unfold strsplits
  rw [hdata, splitSlash_append cls.data hp, splitSlash_no_slash hc]
  simp [List.isEmpty_eq_false.mpr hpne, List.isEmpty_eq_false.mpr hcne, mk_data]

theorem strsplits_three_msg {pkg cls : String} (hp : '/' ∉ pkg.data) (hpne : pkg.data ≠ [])
    (hc : '/' ∉ cls.data) (hcne : cls.data ≠ []) :
    strsplits (pkg ++ "/msg/" ++ cls) = [pkg, "msg", cls] := by
  have hdata : (pkg ++ "/msg/" ++ cls).data =
      pkg.data ++ '/' :: (['m', 's', 'g'] ++ '/' :: cls.data) := by
    rw [String.data_append, String.data_append]
    simp
  unfold strsplits
  rw [hdata, splitSlash_append _ hp, splitSlash_append cls.data (by decide),
    splitSlash_no_slash hc]
  simp [List.isEmpty_eq_false.mpr hpne, List.isEmpty_eq_false.mpr hcne, mk_data]

/-- C6: for any slash-free non-empty package and class names, resolving
"pkg/Cls" and "pkg/msg/Cls" as messages (from a cache containing neither
raw identifier) produces the same outcome, and on success both resulting
caches hold the handle under the shared normalised key "pkg/Cls". -/
theorem c6_two_segment_equiv {μ α : Type} (p : Provider μ α) (pkg cls : String)
    (cache : Cache α)
    (hp : '/' ∉ pkg.data) (hpne : pkg.data ≠ []) (hc : '/' ∉ cls.data) (hcne : cls.data ≠ [])
    (h1 : _get_from_cache cache (pkg ++ "/" ++ cls) = none)
    (h2 : _get_from_cache cache (pkg ++ "/msg/" ++ cls) = none) :
    (_get_msg_class p (pkg ++ "/" ++ cls) cache).1 =
      (_get_msg_class p (pkg ++ "/msg/" ++ cls) cache).1 ∧
    ∀ h, (_get_msg_class p (pkg ++ "/" ++ cls) cache).1 = .ok h →
      _get_from_cache (_get_msg_class p (pkg ++ "/" ++ cls) cache).2 (pkg ++ "/" ++ cls) =
        some h ∧
      _get_from_cache (_get_msg_class p (pkg ++ "/msg/" ++ cls) cache).2 (pkg ++ "/" ++ cls) =
        some h := by
  have hs1 := strsplits_two hp hpne hc hcne
  have hs2 := strsplits_three_msg hp hpne hc hcne
  have hsub1 : _msg_subname (strsplits (pkg ++ "/" ++ cls)) = "msg" := by
    rw [hs1]
    rfl
  have hsub2 : _msg_subname (strsplits (pkg ++ "/msg/" ++ cls)) = "msg" := by
    rw [hs2]
    rfl
  have hsp1 : _splittype (pkg ++ "/" ++ cls) = .ok (pkg, cls) := by
    unfold _splittype
    rw [hs1]
    rfl
  have hsp2 : _splittype (pkg ++ "/msg/" ++ cls) = .ok (pkg, cls) := by
    unfold _splittype
    rw [hs2]
    rfl
  cases hl : _load_class p pkg "msg" cls with
  | ok h0 =>
    have F1 : _get_class p (pkg ++ "/" ++ cls) "msg" cache =
        (.ok h0, _add_to_cache (_add_to_cache cache (pkg ++ "/" ++ cls) h0)
          (pkg ++ "/" ++ cls) h0) := by
      rw [get_class_fresh p "msg" h1 hsp1 h1, hl]
    have F2 : _get_class p (pkg ++ "/msg/" ++ cls) "msg" cache =
        (.ok h0, _add_to_cache (_add_to_cache cache (pkg ++ "/msg/" ++ cls) h0)
          (pkg ++ "/" ++ cls) h0) := by
      rw [get_class_fresh p "msg" h2 hsp2 h1, hl]
    have E1 : _get_msg_class p (pkg ++ "/" ++ cls) cache =
        (.ok h0, _add_to_cache (_add_to_cache cache (pkg ++ "/" ++ cls) h0)
          (pkg ++ "/" ++ cls) h0) := by
      rw [msg_class_eq, hsub1, F1]
    have E2 : _get_msg_class p (pkg ++ "/msg/" ++ cls) cache =
        (.ok h0, _add_to_cache (_add_to_cache cache (pkg ++ "/msg/" ++ cls) h0)
          (pkg ++ "/" ++ cls) h0) := by
      rw [msg_class_eq, hsub2, F2]
    rw [E1, E2]
    refine ⟨rfl, ?_⟩
    intro h hok
    simp only [Except.ok.injEq] at hok
    subst hok
    constructor
    · rw [get_from_cache_add, if_pos rfl]
    · rw [get_from_cache_add, if_pos rfl]
  | error e =>
    have hek := load_class_error_kind hl
    have F1 : _get_class p (pkg ++ "/" ++ cls) "msg" cache = (.error e, cache) := by
      rw [get_class_fresh p "msg" h1 hsp1 h1, hl]
    have F2 : _get_class p (pkg ++ "/msg/" ++ cls) "msg" cache = (.error e, cache) := by
      rw [get_class_fresh p "msg" h2 hsp2 h1, hl]
    have E1 : _get_msg_class p (pkg ++ "/" ++ cls) cache =
        (if e = .invalidModule ∨ e = .invalidClass
         then _get_class p (pkg ++ "/" ++ cls) "msg" cache else (.error e, cache)) := by
      rw [msg_class_eq, hsub1]
      conv_lhs => rw [F1]
    have E2 : _get_msg_class p (pkg ++ "/msg/" ++ cls) cache =
        (if e = .invalidModule ∨ e = .invalidClass
         then _get_class p (pkg ++ "/msg/" ++ cls) "msg" cache else (.error e, cache)) := by
      rw [msg_class_eq, hsub2]
      conv_lhs => rw [F2]
    have E1' : _get_msg_class p (pkg ++ "/" ++ cls) cache = (.error e, cache) := by
      rw [E1, if_pos hek, F1]
    have E2' : _get_msg_class p (pkg ++ "/msg/" ++ cls) cache = (.error e, cache) := by
      rw [E2, if_pos hek, F2]
    rw [E1', E2']
    exact ⟨rfl, fun h hok => by simp at hok⟩

/-- Witness for C6: with the sample provider, "pkg/Cls" and "pkg/msg/Cls"
resolve to the same handle 42 and both caches hold it under "pkg/Cls". -/
theorem c6_two_segment_equiv_witness :
    (_get_msg_class sampleProviderC "pkg/Cls" ([] : Cache Nat)).1 =
      (_get_msg_class sampleProviderC "pkg/msg/Cls" ([] : Cache Nat)).1 ∧
    _get_from_cache (_get_msg_class sampleProviderC "pkg/Cls" ([] : Cache Nat)).2 "pkg/Cls" =
      some 42 ∧
    _get_from_cache
      (_get_msg_class sampleProviderC "pkg/msg/Cls" ([] : Cache Nat)).2 "pkg/Cls" =
      some 42 := by
  have H := c6_two_segment_equiv sampleProviderC "pkg" "Cls" []
    (by decide) (by decide) (by decide) (by decide) rfl rfl
  exact ⟨H.1, (H.2 42 (by decide)).1, (H.2 42 (by decide)).2⟩

theorem splittype_congr {ts1 ts2 : String} (h : strsplits ts1 = strsplits ts2) :
    _splittype ts1 = _splittype ts2 := by
  unfold _splittype
  rw [h]

theorem get_class_fst_eq {μ α : Type} (p : Provider μ α) {ts1 ts2 : String} (sub : String)
    {cache : Cache α} (hspt : _splittype ts1 = _splittype ts2)
    (h1 : _get_from_cache cache ts1 = none) (h2 : _get_from_cache cache ts2 = none) :
    (_get_class p ts1 sub cache).1 = (_get_class p ts2 sub cache).1 := by
  cases hsp : _splittype ts1 with
  | error e =>
    have hsp2 : _splittype ts2 = .error e := by
      rw [← hspt]
      exact hsp
    have A1 : _get_class p ts1 sub cache = (.error e, cache) := by
      unfold _get_class
      rw [h1, hsp]
    have A2 : _get_class p ts2 sub cache = (.error e, cache) := by
      unfold _get_class
      rw [h2, hsp2]
    rw [A1, A2]
  | ok mc =>
    obtain ⟨m, cl⟩ := mc
    have hsp2 : _splittype ts2 = .ok (m, cl) := by
      rw [← hspt]
      exact hsp
    cases hn : _get_from_cache cache (m ++ "/" ++ cl) with
    | some h =>
      rw [get_class_norm_hit p sub h1 hsp hn, get_class_norm_hit p sub h2 hsp2 hn]
    | none =>
      rw [get_class_fresh p sub h1 hsp hn, get_class_fresh p sub h2 hsp2 hn]
      cases hl : _load_class p m sub cl <;> rfl

theorem msg_class_fst_eq {μ α : Type} (p : Provider μ α) {ts1 ts2 : String} {cache : Cache α}
    (hsp : strsplits ts1 = strsplits ts2)
    (h1 : _get_from_cache cache ts1 = none) (h2 : _get_from_cache cache ts2 = none) :
    (_get_msg_class p ts1 cache).1 = (_get_msg_class p ts2 cache).1 := by
  have hspt := splittype_congr hsp
  have hsub : _msg_subname (strsplits ts1) = _msg_subname (strsplits ts2) := by rw [hsp]
  have hf := get_class_fst_eq p (_msg_subname (strsplits ts2)) hspt h1 h2
  rcases r1 : _get_class p ts1 (_msg_subname (strsplits ts2)) cache with ⟨e1 | h0, c1⟩
  · rw [r1] at hf
    rcases r2 : _get_class p ts2 (_msg_subname (strsplits ts2)) cache with ⟨e2 | h0', c2⟩
    · rw [r2] at hf
      simp only at hf
      simp only [Except.error.injEq] at hf
      subst hf
      have hc1 : c1 = cache := get_class_error_cache r1
      have hc2 : c2 = cache := get_class_error_cache r2
      rw [hc1] at r1
      rw [hc2] at r2
      have r1' : _get_class p ts1 (_msg_subname (strsplits ts1)) cache = (.error e1, cache) := by
        rw [hsub]
        exact r1
      have E1 : _get_msg_class p ts1 cache =
          (if e1 = .invalidModule ∨ e1 = .invalidClass then _get_class p ts1 "msg" cache
           else (.error e1, cache)) := by
        rw [msg_class_eq]
        conv_lhs => rw [r1']
      have E2 : _get_msg_class p ts2 cache =
          (if e1 = .invalidModule ∨ e1 = .invalidClass then _get_class p ts2 "msg" cache
           else (.error e1, cache)) := by
        rw [msg_class_eq]
        conv_lhs => rw [r2]
      rw [E1, E2]
      by_cases hif : e1 = .invalidModule ∨ e1 = .invalidClass
      · rw [if_pos hif, if_pos hif]
        exact get_class_fst_eq p "msg" hspt h1 h2
      · rw [if_neg hif, if_neg hif]
    · rw [r2] at hf
      simp at hf
  · rw [r1] at hf
    rcases r2 : _get_class p ts2 (_msg_subname (strsplits ts2)) cache with ⟨e2 | h0', c2⟩
    · rw [r2] at hf
      simp at hf
    · rw [r2] at hf
      simp only [Except.ok.injEq] at hf
      subst hf
      have r1' : _get_class p ts1 (_msg_subname (strsplits ts1)) cache = (.ok h0, c1) := by
        rw [hsub]
        exact r1
      have E1 : _get_msg_class p ts1 cache = (.ok h0, c1) := by
        rw [msg_class_eq]
        conv_lhs => rw [r1']
      have E2 : _get_msg_class p ts2 cache = (.ok h0, c2) := by
        rw [msg_class_eq]
        conv_lhs => rw [r2]
      rw [E1, E2]

theorem srv_class_fst_eq {μ α : Type} (p : Provider μ α) {ts1 ts2 : String} {cache : Cache α}
    (hsp : strsplits ts1 = strsplits ts2)
    (h1 : _get_from_cache cache ts1 = none) (h2 : _get_from_cache cache ts2 = none) :
    (_get_srv_class p ts1 cache).1 = (_get_srv_class p ts2 cache).1 := by
  have hspt := splittype_congr hsp
  rcases hsubr : _srv_subname (strsplits ts2) with e0 | sub
  · have hsub1 : _srv_subname (strsplits ts1) = .error e0 := by
      rw [hsp]
      exact hsubr
    have A1 : _get_srv_class p ts1 cache = (.error e0, cache) := by
      unfold _get_srv_class
      rw [hsub1]
    have A2 : _get_srv_class p ts2 cache = (.error e0, cache) := by
      unfold _get_srv_class
      rw [hsubr]
    rw [A1, A2]
  · have hsub1 : _srv_subname (strsplits ts1) = .ok sub := by
      rw [hsp]
      exact hsubr
    have hf := get_class_fst_eq p sub hspt h1 h2
    rcases r1 : _get_class p ts1 sub cache with ⟨e1 | h0, c1⟩
    · rw [r1] at hf
      rcases r2 : _get_class p ts2 sub cache with ⟨e2 | h0', c2⟩
      · rw [r2] at hf
        simp only [Except.error.injEq] at hf
        subst hf
        have hc1 : c1 = cache := get_class_error_cache r1
        have hc2 : c2 = cache := get_class_error_cache r2
        rw [hc1] at r1
        rw [hc2] at r2
        have E1 : _get_srv_class p ts1 cache =
            (if e1 = .invalidModule ∨ e1 = .invalidClass then _get_class p ts1 "srv" cache
             else (.error e1, cache)) := by
          rw [srv_class_eq_of_subname p cache hsub1]
          conv_lhs => rw [r1]
        have E2 : _get_srv_class p ts2 cache =
            (if e1 = .invalidModule ∨ e1 = .invalidClass then _get_class p ts2 "srv" cache
             else (.error e1, cache)) := by
          rw [srv_class_eq_of_subname p cache hsubr]
          conv_lhs => rw [r2]
        rw [E1, E2]
        by_cases hif : e1 = .invalidModule ∨ e1 = .invalidClass
        · rw [if_pos hif, if_pos hif]
          exact get_class_fst_eq p "srv" hspt h1 h2
        · rw [if_neg hif, if_neg hif]
      · rw [r2] at hf
        simp at hf
    · rw [r1] at hf
      rcases r2 : _get_class p ts2 sub cache with ⟨e2 | h0', c2⟩
      · rw [r2] at hf
        simp at hf
      · rw [r2] at hf
        simp only [Except.ok.injEq] at hf
        subst hf
        have E1 : _get_srv_class p ts1 cache = (.ok h0, c1) := by
          rw [srv_class_eq_of_subname p cache hsub1]
          conv_lhs => rw [r1]
        have E2 : _get_srv_class p ts2 cache = (.ok h0, c2) := by
          rw [srv_class_eq_of_subname p cache hsubr]
          conv_lhs => rw [r2]
        rw [E1, E2]

/-- C8: two spellings of an identifier with the same non-empty segments
(as produced by discarding empty segments from extra slashes) have the
same parse outcome, the same inferred subnames, and resolve (from a cache
holding neither raw spelling) to the same result, for both message and
service resolution. -/
theorem c8_slash_insensitive {μ α : Type} (p : Provider μ α) (ts1 ts2 : String)
    (cache : Cache α) (hsp : strsplits ts1 = strsplits ts2)
    (h1 : _get_from_cache cache ts1 = none) (h2 : _get_from_cache cache ts2 = none) :
    _splittype ts1 = _splittype ts2 ∧
    _msg_subname (strsplits ts1) = _msg_subname (strsplits ts2) ∧
    _srv_subname (strsplits ts1) = _srv_subname (strsplits ts2) ∧
    (_get_msg_class p ts1 cache).1 = (_get_msg_class p ts2 cache).1 ∧
    (_get_srv_class p ts1 cache).1 = (_get_srv_class p ts2 cache).1 :=
  ⟨splittype_congr hsp, by rw [hsp], by rw [hsp],
   msg_class_fst_eq p hsp h1 h2, srv_class_fst_eq p hsp h1 h2⟩

/-- Witness for C8: "pkg//Cls" (double slash) resolves exactly like
"pkg/Cls". -/
theorem c8_slash_insensitive_witness :
    (_get_msg_class sampleProviderC "pkg//Cls" ([] : Cache Nat)).1 =
      (_get_msg_class sampleProviderC "pkg/Cls" ([] : Cache Nat)).1 ∧
    (_get_srv_class sampleProviderC "pkg//Cls" ([] : Cache Nat)).1 =
      (_get_srv_class sampleProviderC "pkg/Cls" ([] : Cache Nat)).1 ∧
    (_get_msg_class sampleProviderC "pkg//Cls" ([] : Cache Nat)).1 = .ok 42 := by
  have H := c8_slash_insensitive sampleProviderC "pkg//Cls" "pkg/Cls" [] (by decide) rfl rfl
  exact ⟨H.2.2.2.1, H.2.2.2.2, by decide⟩

theorem splittype_of_shape {ts : String}
    (hshape : (strsplits ts).length = 3 ∨
      ((strsplits ts).length = 4 ∧ (strsplits ts).getD 1 "" = "action")) :
    ∃ m cl, _splittype ts = .ok (m, cl) ∧ (strsplits ts).head? = some m ∧
      (strsplits ts).getLast? = some cl := by
  rcases splittype_spec ts with ⟨a, b, hl, he⟩ | ⟨a, b, c, hl, he⟩ | ⟨a, c, d, hl, he⟩ |
    ⟨hn2, hn3, hn4, he⟩
  · exact ⟨a, b, he, by rw [hl]; rfl, by rw [hl]; rfl⟩
  · exact ⟨a, c, he, by rw [hl]; rfl, by rw [hl]; rfl⟩
  · exact ⟨a, d, he, by rw [hl]; rfl, by rw [hl]; rfl⟩
  · exfalso
    rcases hshape with h3 | ⟨h4, hact⟩
    · obtain ⟨a, b, c, hl⟩ := List.length_eq_three.mp h3
      exact hn3 ⟨a, b, c, hl⟩
    · obtain ⟨a, t1, hl1⟩ := List.exists_of_length_succ _ h4
      have ht1 : t1.length = 3 := by
        have h4' := h4
        rw [hl1] at h4'
        simpa using h4'
      obtain ⟨b, c, d, hl2⟩ := List.length_eq_three.mp ht1
      subst hl2
      rw [hl1] at hact
      have hb : b = "action" := by simpa [List.getD] using hact
      exact hn4 ⟨a, c, d, by rw [hl1, hb]⟩

theorem get_class_ok_norm_cached {μ α : Type} {p : Provider μ α} {ts sub : String}
    {cache c1 : Cache α} {h : α}
    (hts : _get_from_cache cache ts = none)
    (hok : _get_class p ts sub cache = (.ok h, c1)) :
    ∃ m cl, _splittype ts = .ok (m, cl) ∧ _get_from_cache c1 (m ++ "/" ++ cl) = some h := by
  rcases get_class_cases p ts sub cache with ⟨h0, hc, he⟩ | ⟨-, -, he⟩ |
    ⟨-, m, cl, h0, hsp, hn, he⟩ | ⟨-, m, cl, hsp, hn, ⟨e0, -, he⟩ | ⟨cls, -, he⟩⟩ <;>
    rw [he] at hok
  · rw [hts] at hc
    simp at hc
  · simp at hok
  · simp only [Prod.mk.injEq, Except.ok.injEq] at hok
    obtain ⟨rfl, rfl⟩ := hok
    exact ⟨m, cl, hsp, hn⟩
  · simp at hok
  · simp only [Prod.mk.injEq, Except.ok.injEq] at hok
    obtain ⟨rfl, rfl⟩ := hok
    exact ⟨m, cl, hsp, by rw [get_from_cache_add, if_pos rfl]⟩

/-- C10 counterexample: "pkg/a/b/c/Cls" has five non-empty segments sharing
first segment "pkg" and last segment "Cls" with the already-resolved
"pkg/a/Cls", yet resolving it does not return the cached handle — it fails
with InvalidTypeString, because `_splittype` accepts no five-segment
shape. -/
theorem c10_subpath_discard_counterexample :
    _get_msg_class sampleProviderA "pkg/a/Cls" ([] : Cache Nat) =
      (.ok 7, [("pkg/Cls", 7), ("pkg/a/Cls", 7)]) ∧
    _get_from_cache [("pkg/Cls", 7), ("pkg/a/Cls", 7)] "pkg/a/b/c/Cls" = (none : Option Nat) ∧
    _get_msg_class sampleProviderA "pkg/a/b/c/Cls" [("pkg/Cls", 7), ("pkg/a/Cls", 7)] =
      (.error .invalidTypeString, [("pkg/Cls", 7), ("pkg/a/Cls", 7)]) := by
  decide

/-- C10 amended: once an unseen identifier with three or more segments has
been resolved successfully, any second identifier that parses (exactly
three segments, or four with second segment "action"), shares its first
and last segments with the first identifier, and is itself not yet a raw
cache key, resolves through the core routine `_get_class` — with any
subpath whatsoever and against any provider whatsoever — to the first
identifier's cached handle via the normalised key, leaving the cache
unchanged. -/
theorem c10_normalized_key_reuse {μ μ' α : Type} (p : Provider μ α) (q : Provider μ' α)
    (ts1 ts2 sub1 sub2 : String) (cache c1 : Cache α) (h : α)
    (hts1 : _get_from_cache cache ts1 = none)
    (_hlen1 : 3 ≤ (strsplits ts1).length)
    (hok : _get_class p ts1 sub1 cache = (.ok h, c1))
    (hshape : (strsplits ts2).length = 3 ∨
      ((strsplits ts2).length = 4 ∧ (strsplits ts2).getD 1 "" = "action"))
    (hhead : (strsplits ts1).head? = (strsplits ts2).head?)
    (hlast : (strsplits ts1).getLast? = (strsplits ts2).getLast?)
    (hts2 : _get_from_cache c1 ts2 = none) :
    _get_class q ts2 sub2 c1 = (.ok h, c1) := by
  obtain ⟨m, cl, hsp1, hnorm⟩ := get_class_ok_norm_cached hts1 hok
  obtain ⟨hh1, hl1⟩ := splittype_ok_head_last hsp1
  obtain ⟨m2, cl2, hsp2, hh2, hl2⟩ := splittype_of_shape hshape
  rw [hhead] at hh1
  rw [hlast] at hl1
  rw [hh1] at hh2
  rw [hl1] at hl2
  simp only [Option.some.injEq] at hh2 hl2
  subst hh2
  subst hl2
  exact get_class_norm_hit q sub2 hts2 hsp2 hnorm

/-- Witness for C10 (amended): after "pkg/a/Cls" is resolved, "pkg/b/Cls"
resolves to the cached handle even against the dead provider. -/
theorem c10_normalized_key_reuse_witness :
    _get_class deadProvider "pkg/b/Cls" "b" [("pkg/Cls", 7), ("pkg/a/Cls", 7)] =
      (.ok 7, [("pkg/Cls", 7), ("pkg/a/Cls", 7)]) :=
  c10_normalized_key_reuse sampleProviderA deadProvider "pkg/a/Cls" "pkg/b/Cls" "a" "b"
    [] [("pkg/Cls", 7), ("pkg/a/Cls", 7)] 7 rfl (by decide) (by decide)
    (Or.inl (by decide)) (by decide) (by decide) rfl

theorem snakeAux_eq_enumFrom (full : List Char) :
    ∀ (cs : List Char) (k : Nat) (prev : Option Char),
      full.drop k = cs →
      prev = (if k = 0 then none else full[k-1]?) →
      snakeAux prev cs =
        (List.enumFrom k cs).flatMap
          (fun ic => if specSnakeAt full ic.1 then ['_', ic.2] else [ic.2]) := by
  intro cs
  induction cs with
  | nil =>
    intro k prev _ _
    rfl
  | cons c rest ih =>
    intro k prev hdrop hprev
    have hk : k < full.length := by
      by_contra hge
      have hnil : full.drop k = [] := List.drop_eq_nil_of_le (by omega)
      rw [hnil] at hdrop
      exact absurd hdrop (by simp)
    have hfk : full[k]? = some c := by
      have h0 := List.getElem?_drop full k 0
      rw [hdrop] at h0
      simpa using h0.symm
    have hdrop' : full.drop (k + 1) = rest := by
      have hdd := List.drop_drop 1 k full
      rw [hdrop] at hdd
      simpa using hdd.symm
    have hnext : rest.head? = full[k + 1]? := by
      rw [← hdrop', List.head?_eq_getElem?, List.getElem?_drop]
    rw [List.enumFrom_cons, List.flatMap_cons]
    show (if snakeUnderscore prev c rest.head? then ['_', c] else [c]) ++
        snakeAux (some c) rest = _
    have hcond : snakeUnderscore prev c rest.head? = specSnakeAt full k := by
      cases k with
      | zero =>
        subst hprev
        simp [snakeUnderscore, specSnakeAt]
      | succ j =>
        subst hprev
        have hpc : full[j]? = some full[j] := List.getElem?_eq_getElem (by omega)
        simp [snakeUnderscore, specSnakeAt, hfk, ← hnext, hpc, Nat.add_sub_cancel]
    rw [hcond]
    congr 1
    exact ih (k + 1) (some c) hdrop' (by simp [hfk])

theorem camel_eq_spec (s : String) : camel_to_snake_case s = spec_camel_to_snake s := by
  unfold camel_to_snake_case spec_camel_to_snake
  rw [snakeAux_eq_enumFrom s.data s.data 0 none (by simp) (by simp)]
  rfl

theorem dropSuffix?_append (b sfx : List Char) : dropSuffix? (b ++ sfx) sfx = some b := by
  have hlen : (b ++ sfx).length - sfx.length = b.length := by
    rw [List.length_append]
    omega
  unfold dropSuffix?
  rw [hlen, List.drop_left, List.take_left,
    if_pos ⟨by rw [List.length_append]; omega, rfl⟩]

theorem dropSuffix?_some {cs sfx b : List Char} (h : dropSuffix? cs sfx = some b) :
    cs = b ++ sfx := by
  unfold dropSuffix? at h
  split at h
  · rename_i hcnd
    simp only [Option.some.injEq] at h
    have htd := List.take_append_drop (cs.length - sfx.length) cs
    rw [hcnd.2, h] at htd
    exact htd.symm
  · simp at h

theorem dropSuffix?_gr_sg (b : List Char) :
    dropSuffix? (b ++ "_GetResult".data) "_SendGoal".data = none := by
  have h10 : ("_GetResult".data : List Char).length = 10 := rfl
  have h9 : ("_SendGoal".data : List Char).length = 9 := rfl
  have hlen : (b ++ "_GetResult".data).length - ("_SendGoal".data : List Char).length =
      b.length + 1 := by
    rw [List.length_append, h10, h9]
    omega
  unfold dropSuffix?
  rw [if_neg]
  rintro ⟨-, heq⟩
  rw [hlen] at heq
  have hda := @List.drop_append Char b ("_GetResult".data) 1
  rw [hda] at heq
  exact absurd heq (by decide)

theorem remove_suffixes_sg (base : String) :
    remove_autogenerated_suffixes (base ++ "_SendGoal") = .ok base := by
  unfold remove_autogenerated_suffixes
  rw [String.data_append, dropSuffix?_append]

theorem remove_suffixes_gr (base : String) :
    remove_autogenerated_suffixes (base ++ "_GetResult") = .ok base := by
  unfold remove_autogenerated_suffixes
  rw [String.data_append, dropSuffix?_gr_sg, dropSuffix?_append]

/-- C5: the hidden-action subname resolver returns the subpath unchanged
when it splits on "._" into exactly two parts; otherwise it strips a
"_SendGoal" or "_GetResult" suffix, camel-to-snake-converts the base name
exactly as the spec describes it (proved by equating the regex scan with
the spec's positional formulation), and appends "._" plus the converted
name to the subpath; a class name ending in neither suffix fails with
InvalidActionInterface. The spec's concrete examples also hold. -/
theorem c5_action_subname_resolver :
    (∀ s, camel_to_snake_case s = spec_camel_to_snake s) ∧
    (∀ sub cn, (splitDotUnderscore sub.data).length = 2 →
      _get_hidden_action_subname sub cn = .ok sub) ∧
    (∀ sub (base : String), (splitDotUnderscore sub.data).length ≠ 2 →
      _get_hidden_action_subname sub (base ++ "_SendGoal") =
        .ok (sub ++ "._" ++ camel_to_snake_case base)) ∧
    (∀ sub (base : String), (splitDotUnderscore sub.data).length ≠ 2 →
      _get_hidden_action_subname sub (base ++ "_GetResult") =
        .ok (sub ++ "._" ++ camel_to_snake_case base)) ∧
    (∀ sub cn, (splitDotUnderscore sub.data).length ≠ 2 →
      (∀ base : String, cn ≠ base ++ "_SendGoal") →
      (∀ base : String, cn ≠ base ++ "_GetResult") →
      _get_hidden_action_subname sub cn = .error .invalidActionInterface) ∧
    camel_to_snake_case "NavigateToPose" = "navigate_to_pose" ∧
    _get_hidden_action_subname "action" "NavigateToPose_SendGoal" =
      .ok "action._navigate_to_pose" ∧
    _get_hidden_action_subname "action" "NavigateToPose" =
      .error .invalidActionInterface := by
  refine ⟨camel_eq_spec, ?_, ?_, ?_, ?_, by decide, by decide, by decide⟩
  · intro sub cn h
    unfold _get_hidden_action_subname
    rw [if_pos h]
  · intro sub base h
    unfold _get_hidden_action_subname
    rw [if_neg h, remove_suffixes_sg]
  · intro sub base h
    unfold _get_hidden_action_subname
    rw [if_neg h, remove_suffixes_gr]
  · intro sub cn h hnsg hngr
    unfold _get_hidden_action_subname
    rw [if_neg h]
    unfold remove_autogenerated_suffixes
    cases hsg : dropSuffix? cn.data "_SendGoal".data with
    | some b =>
      exfalso
      refine hnsg (String.mk b) ?_
      calc cn = String.mk cn.data := (mk_data cn).symm
        _ = String.mk (b ++ "_SendGoal".data) := by rw [dropSuffix?_some hsg]
        _ = String.mk b ++ "_SendGoal" := rfl
    | none =>
      cases hgr : dropSuffix? cn.data "_GetResult".data with
      | some b =>
        exfalso
        refine hngr (String.mk b) ?_
        calc cn = String.mk cn.data := (mk_data cn).symm
          _ = String.mk (b ++ "_GetResult".data) := by rw [dropSuffix?_some hgr]
          _ = String.mk b ++ "_GetResult" := rfl
      | none =>
        rfl

/-- Witness for C5: concrete applications of the three behaviours. -/
theorem c5_action_subname_witness :
    _get_hidden_action_subname "action._foo" "Whatever" = .ok "action._foo" ∧
    _get_hidden_action_subname "action" ("NavigateToPose" ++ "_SendGoal") =
      .ok ("action" ++ "._" ++ camel_to_snake_case "NavigateToPose") ∧
    _get_hidden_action_subname "action" ("Fibonacci" ++ "_GetResult") =
      .ok ("action" ++ "._" ++ camel_to_snake_case "Fibonacci") :=
  ⟨c5_action_subname_resolver.2.1 "action._foo" "Whatever" (by decide),
   c5_action_subname_resolver.2.2.1 "action" "NavigateToPose" (by decide),
   c5_action_subname_resolver.2.2.2.1 "action" "Fibonacci" (by decide)⟩

end RosLoader
